import Mathlib

/-!
Verification of `search-params-utils` (src/index.ts) against its
specification.

The library operates on `URLSearchParams`: an ordered multi-map of string
keys to string values.  We embed it as a list of (key, value) pairs and
translate each exported function of `src/index.ts`.  Diagnostic logging
(`console.error`) is modelled as a list of emitted messages returned next
to the result; `undefined` results become `Option.none`.

JS numbers are IEEE-754 doubles; we model them exactly (as rationals, plus
NaN and the infinities).  No claim depends on floating-point rounding: the
claims only exercise small integer values and NaN-ness, where doubles are
exact.
-/

namespace SearchParamsUtils

/-- A `URLSearchParams` collection: an ordered list of (key, value) string
pairs, in insertion order. -/
abbrev SearchParams : Type := List (String × String)

/-- `params.get(key)`: the value of the first pair with the given key, or
`none` (JS `null`) if there is none. -/
def getFirst : SearchParams → String → Option String
  | [], _ => none
  | e :: rest, key => if e.1 = key then some e.2 else getFirst rest key

/-- `params.getAll(key)`: all values whose key matches, in order. -/
def getAllParams : SearchParams → String → List String
  | [], _ => []
  | e :: rest, key =>
    if e.1 = key then e.2 :: getAllParams rest key else getAllParams rest key

/-- `params.append(key, value)`: add a pair at the end. -/
def appendParam (p : SearchParams) (key value : String) : SearchParams :=
  p ++ [(key, value)]

/-- `params.delete(key)`: remove every pair with the given key. -/
def deleteParam : SearchParams → String → SearchParams
  | [], _ => []
  | e :: rest, key =>
    if e.1 = key then deleteParam rest key else e :: deleteParam rest key

/-- `params.has(key)`. -/
def hasParam : SearchParams → String → Bool
  | [], _ => false
  | e :: rest, key => if e.1 = key then true else hasParam rest key

/-- `params.set(key, value)` per the WHATWG URL standard: replace the value
of the first pair with this key in place, drop the other pairs with this
key, or append if the key is absent. -/
def setParam : SearchParams → String → String → SearchParams
  | [], key, value => [(key, value)]
  | e :: rest, key, value =>
    if e.1 = key then (key, value) :: deleteParam rest key
    else e :: setParam rest key value

/-- The keys of a collection, in order, with repeats. -/
def keysOf (p : SearchParams) : List String := p.map (·.1)

/-- A JS number: NaN, ±Infinity, or a finite value.  Finite doubles are
modelled as exact rationals. -/
inductive JsNumber : Type
  | nan
  | posInf
  | negInf
  | num (val : ℚ)
deriving DecidableEq, Repr

/-- JS whitespace accepted (and skipped) by `parseInt` / `parseFloat`.
(The full JS set also has exotic Unicode spaces; no claim uses any.) -/
def jsIsWhitespace (c : Char) : Bool :=
  c = ' ' || c = '\t' || c = '\n' || c = '\r' || c = '\x0b' || c = '\x0c' || c = '\xa0'

/-- Numeric value of a digit character; `99` marks a non-digit (it is
`≥` every radix in use, 10 and 16). -/
def digitValue (c : Char) : Nat :=
  if '0' ≤ c ∧ c ≤ '9' then c.toNat - 48
  else if 'a' ≤ c ∧ c ≤ 'f' then c.toNat - 87
  else if 'A' ≤ c ∧ c ≤ 'F' then c.toNat - 55
  else 99

def isRadixDigit (radix : Nat) (c : Char) : Bool :=
  decide (digitValue c < radix)

def digitsToNat (radix : Nat) (ds : List Char) : Nat :=
  ds.foldl (fun acc c => acc * radix + digitValue c) 0

/-- JS `parseInt(s)` (radix argument omitted): skip whitespace, read an
optional sign, detect a `0x`/`0X` prefix (radix 16, else 10), then take the
longest prefix of radix digits; NaN if that prefix is empty.  The
mathematical integer is returned exactly (JS rounds huge values to a
double; no claim uses such values).  `parseInt` never throws. -/
def jsParseInt (s : String) : JsNumber :=
  let cs := s.data.dropWhile jsIsWhitespace
  let signAndRest : Int × List Char :=
    match cs with
    | '-' :: rest => (-1, rest)
    | '+' :: rest => (1, rest)
    | _ => (1, cs)
  let radixAndRest : Nat × List Char :=
    match signAndRest.2 with
    | '0' :: 'x' :: rest => (16, rest)
    | '0' :: 'X' :: rest => (16, rest)
    | _ => (10, signAndRest.2)
  let digits := radixAndRest.2.takeWhile (isRadixDigit radixAndRest.1)
  if digits.isEmpty then .nan
  else .num ((signAndRest.1 * (digitsToNat radixAndRest.1 digits : Int) : Int) : ℚ)

/-- The exponent of a JS float literal: `e`/`E` already consumed; an
optional sign then digits.  If no digit follows, the exponent part is not
part of the longest valid prefix and contributes 0. -/
def expPart (cs : List Char) : Int :=
  match cs with
  | '-' :: rest =>
    let ds := rest.takeWhile (isRadixDigit 10)
    if ds.isEmpty then 0 else -(digitsToNat 10 ds : Int)
  | '+' :: rest =>
    let ds := rest.takeWhile (isRadixDigit 10)
    if ds.isEmpty then 0 else (digitsToNat 10 ds : Int)
  | _ =>
    let ds := cs.takeWhile (isRadixDigit 10)
    if ds.isEmpty then 0 else (digitsToNat 10 ds : Int)

/-- The rational `mant * 10 ^ e10`, written so that the kernel can
evaluate it (no rational zpow). -/
def ratOfScientific (mant e10 : Int) : ℚ :=
  if 0 ≤ e10 then ((mant * 10 ^ e10.toNat : Int) : ℚ)
  else (mant : ℚ) / ((10 ^ (-e10).toNat : Int) : ℚ)

/-- JS `parseFloat(s)`: skip whitespace, optional sign, then the longest
prefix forming a `StrDecimalLiteral` (`Infinity`, or decimal digits with an
optional fraction and exponent); NaN if there is none.  The decimal value
is returned exactly.  `parseFloat` never throws. -/
def jsParseFloat (s : String) : JsNumber :=
  let cs := s.data.dropWhile jsIsWhitespace
  let signAndRest : Int × List Char :=
    match cs with
    | '-' :: rest => (-1, rest)
    | '+' :: rest => (1, rest)
    | _ => (1, cs)
  let cs1 := signAndRest.2
  if cs1.take 8 = "Infinity".data then
    if signAndRest.1 = 1 then .posInf else .negInf
  else
    let intDigits := cs1.takeWhile (isRadixDigit 10)
    let afterInt := cs1.drop intDigits.length
    let fracAndRest : List Char × List Char :=
      match afterInt with
      | '.' :: rest =>
        (rest.takeWhile (isRadixDigit 10),
         rest.drop (rest.takeWhile (isRadixDigit 10)).length)
      | _ => ([], afterInt)
    if intDigits.isEmpty ∧ fracAndRest.1.isEmpty then .nan
    else
      let exp : Int :=
        match fracAndRest.2 with
        | 'e' :: rest => expPart rest
        | 'E' :: rest => expPart rest
        | _ => 0
      let mant : Int :=
        signAndRest.1 * (digitsToNat 10 (intDigits ++ fracAndRest.1) : Int)
      .num (ratOfScientific mant (exp - fracAndRest.1.length))

/-- A JS `Date` built by `new Date(string)`.  Modelled as carrying its
input string: no claim observes the parsed time value, validity, or the
date-to-string rendering, only presence/absence. -/
structure JsDate where
  raw : String
deriving DecidableEq, Repr

/-- The `console.error` message template the library uses on every parse
failure (the caught error object is not modelled). -/
def parseErrMsg (key : String) : String :=
  "An error occurred while parsing " ++ key

/-- Integer element coercion.  JS `parseInt` is total (NaN on failure), so
this never returns `.error`; the `Except` mirrors the try/catch of the
source. -/
def coerceInt (s : String) : Except String JsNumber := .ok (jsParseInt s)

/-- Float element coercion; `parseFloat` is likewise total. -/
def coerceFloat (s : String) : Except String JsNumber := .ok (jsParseFloat s)

/-- Boolean element coercion: the source throws unless the string is
exactly "true" or "false". -/
def coerceBool (s : String) : Except String Bool :=
  if s ≠ "true" ∧ s ≠ "false" then
    .error "string must be either \"true\" or \"false\""
  else .ok (decide (s = "true"))

/-- Date element coercion: `new Date(string)` never throws. -/
def coerceDate (s : String) : Except String JsDate := .ok ⟨s⟩

/-- `getString`: first value, with `null` and `""` mapped to absent. -/
def getString (p : SearchParams) (key : String) : Option String :=
  match getFirst p key with
  | none => none
  | some v => if v = "" then none else some v

/-- `getInt`: first value; absent on missing/empty; otherwise `parseInt`
inside try/catch (the catch logs and returns absent). -/
def getInt (p : SearchParams) (key : String) : Option JsNumber × List String :=
  match getFirst p key with
  | none => (none, [])
  | some v =>
    if v = "" then (none, [])
    else
      match coerceInt v with
      | .ok n => (some n, [])
      | .error _ => (none, [parseErrMsg key])

/-- `getFloat`: like `getInt` with `parseFloat`. -/
def getFloat (p : SearchParams) (key : String) : Option JsNumber × List String :=
  match getFirst p key with
  | none => (none, [])
  | some v =>
    if v = "" then (none, [])
    else
      match coerceFloat v with
      | .ok n => (some n, [])
      | .error _ => (none, [parseErrMsg key])

/-- `getBoolean`: absent on missing/empty; exact "true"/"false" otherwise,
any other value hits the catch (log, absent). -/
def getBoolean (p : SearchParams) (key : String) : Option Bool × List String :=
  match getFirst p key with
  | none => (none, [])
  | some v =>
    if v = "" then (none, [])
    else
      match coerceBool v with
      | .ok b => (some b, [])
      | .error _ => (none, [parseErrMsg key])

/-- `getDate`: absent on missing/empty; otherwise `new Date(v)` (which
never throws, so the catch is dead). -/
def getDate (p : SearchParams) (key : String) : Option JsDate × List String :=
  match getFirst p key with
  | none => (none, [])
  | some v =>
    if v = "" then (none, [])
    else
      match coerceDate v with
      | .ok d => (some d, [])
      | .error _ => (none, [parseErrMsg key])

/-- JS `Array.prototype.map` with a possibly-throwing callback: left to
right, aborting at the first thrown error. -/
def mapThrow (f : α → Except ε β) : List α → Except ε (List β)
  | [] => .ok []
  | a :: rest =>
    match f a with
    | .error e => .error e
    | .ok b =>
      match mapThrow f rest with
      | .error e => .error e
      | .ok bs => .ok (b :: bs)

/-- `getStringArray`: all values; absent when there are none. -/
def getStringArray (p : SearchParams) (key : String) : Option (List String) :=
  let arr := getAllParams p key
  if arr.isEmpty then none else some arr

/-- `getIntArray`: all values; absent when none; otherwise `parseInt` each
inside one try/catch (a throw logs once and discards the whole array). -/
def getIntArray (p : SearchParams) (key : String) :
    Option (List JsNumber) × List String :=
  let arr := getAllParams p key
  if arr.isEmpty then (none, [])
  else
    match mapThrow coerceInt arr with
    | .ok l => (some l, [])
    | .error _ => (none, [parseErrMsg key])

/-- `getFloatArray`: like `getIntArray` with `parseFloat`. -/
def getFloatArray (p : SearchParams) (key : String) :
    Option (List JsNumber) × List String :=
  let arr := getAllParams p key
  if arr.isEmpty then (none, [])
  else
    match mapThrow coerceFloat arr with
    | .ok l => (some l, [])
    | .error _ => (none, [parseErrMsg key])

/-- `getBooleanArray`: each element must be exactly "true"/"false"; one bad
element throws, which logs once and discards the whole array. -/
def getBooleanArray (p : SearchParams) (key : String) :
    Option (List Bool) × List String :=
  let arr := getAllParams p key
  if arr.isEmpty then (none, [])
  else
    match mapThrow coerceBool arr with
    | .ok l => (some l, [])
    | .error _ => (none, [parseErrMsg key])

/-- `getDateArray`. -/
def getDateArray (p : SearchParams) (key : String) :
    Option (List JsDate) × List String :=
  let arr := getAllParams p key
  if arr.isEmpty then (none, [])
  else
    match mapThrow coerceDate arr with
    | .ok l => (some l, [])
    | .error _ => (none, [parseErrMsg key])

structure Pagination where
  page : Option JsNumber
  pageSize : Option JsNumber
deriving DecidableEq, Repr

/-- `getPagination`: two independent `getInt` calls.  The try/catch around
them is dead (`getInt` catches internally and never throws); the logs of
the two calls are concatenated. -/
def getPagination (p : SearchParams) : Pagination × List String :=
  let page := getInt p "page"
  let pageSize := getInt p "pageSize"
  (⟨page.1, pageSize.1⟩, page.2 ++ pageSize.2)

structure OrderingResult where
  orderBy : Option String
  orderDirection : Option String
deriving DecidableEq, Repr

/-- `getOrdering`: reads `orderBy` and `orderDirection` via `getString`;
if `orderDirection` is present but neither "asc" nor "desc" the body
throws, and the catch logs and resets BOTH fields to absent. -/
def getOrdering (p : SearchParams) : OrderingResult × List String :=
  let ob := getString p "orderBy"
  let od := getString p "orderDirection"
  match od with
  | some d =>
    if d ≠ "asc" ∧ d ≠ "desc" then (⟨none, none⟩, [parseErrMsg "ordering"])
    else (⟨ob, od⟩, [])
  | none => (⟨ob, od⟩, [])

/-- `copySearchParams`: a fresh collection, appending each pair of the
input in iteration order. -/
def copySearchParams (p : SearchParams) : SearchParams :=
  p.foldl (fun acc e => appendParam acc e.1 e.2) []

/-- `deleteSearchParams`: copy, then `delete` each listed key. -/
def deleteSearchParams (p : SearchParams) (keysToDelete : List String) :
    SearchParams :=
  keysToDelete.foldl (fun acc key => deleteParam acc key) (copySearchParams p)

/-- `filterSearchParams`: a fresh collection keeping, in order, exactly the
pairs whose key is in the keep list. -/
def filterSearchParams (p : SearchParams) (keysToKeep : List String) :
    SearchParams :=
  p.foldl (fun acc e => if e.1 ∈ keysToKeep then appendParam acc e.1 e.2 else acc) []

/-- A scalar member of the source's `ParamValue` union.  Numbers are
restricted to integer doubles — every claim uses integer literals, whose
JS string form is plain decimal. -/
inductive ScalarParam : Type
  | str (s : String)
  | num (n : Int)
  | bool (b : Bool)
  | date (d : JsDate)
deriving DecidableEq, Repr

/-- JS `.toString()` of a scalar.  (A date renders via its stored string;
no claim observes date stringification.) -/
def scalarToString : ScalarParam → String
  | .str s => s
  | .num n => toString n
  | .bool b => if b then "true" else "false"
  | .date d => d.raw

/-- The source's `ParamValue`: `undefined`, a scalar, or an array of
scalars. -/
inductive ParamValue : Type
  | undef
  | scalar (v : ScalarParam)
  | arr (items : List ScalarParam)
deriving DecidableEq, Repr

/-- `createSearchParams`: iterate `Object.entries` of the input mapping
(insertion order, keys unique); skip `undefined`; `append` one entry per
array element; `set` a single entry for a scalar. -/
def createSearchParams (entries : List (String × ParamValue)) : SearchParams :=
  entries.foldl
    (fun acc e =>
      match e.2 with
      | .undef => acc
      | .arr items =>
        items.foldl (fun a item => appendParam a e.1 (scalarToString item)) acc
      | .scalar v => setParam acc e.1 (scalarToString v))
    []

/-- `addSearchParams`: copy the input, then per entry: skip `undefined`;
for an array, `delete` the key first when the array is empty or the key
already exists, then `append` each element; for a scalar, `set`. -/
def addSearchParams (p : SearchParams) (paramsToAdd : List (String × ParamValue)) :
    SearchParams :=
  paramsToAdd.foldl
    (fun acc e =>
      match e.2 with
      | .undef => acc
      | .arr items =>
        let acc1 := if items.isEmpty || hasParam acc e.1 then deleteParam acc e.1 else acc
        items.foldl (fun a item => appendParam a e.1 (scalarToString item)) acc1
      | .scalar v => setParam acc e.1 (scalarToString v))
    (copySearchParams p)

/-- A value of the plain object produced by `searchParamsToObject`. -/
inductive ObjValue : Type
  | str (s : String)
  | arr (items : List String)
deriving DecidableEq, Repr

/-- JS property read `object[key]`. -/
def objGet : List (String × ObjValue) → String → Option ObjValue
  | [], _ => none
  | e :: rest, key => if e.1 = key then some e.2 else objGet rest key

/-- JS assignment `object[key] = v`: overwrite in place when the key
exists (keeping its position), else append.  (Integer-like key reordering
of JS objects is not modelled; no claim uses such keys.) -/
def objSet : List (String × ObjValue) → String → ObjValue → List (String × ObjValue)
  | [], key, v => [(key, v)]
  | e :: rest, key, v =>
    if e.1 = key then (key, v) :: rest else e :: objSet rest key v

/-- `searchParamsToObject`: for keys in `keysToArray` accumulate all
occurrences into an array; for others, last value wins.  (The push-on-a-
string case cannot arise — the branch taken for a key is determined by its
membership in `keysToArray` — and is modelled as restarting the array.) -/
def searchParamsToObject (p : SearchParams) (keysToArray : List String) :
    List (String × ObjValue) :=
  p.foldl
    (fun obj e =>
      if e.1 ∈ keysToArray then
        match objGet obj e.1 with
        | some (.arr items) => objSet obj e.1 (.arr (items ++ [e.2]))
        | some (.str _) => objSet obj e.1 (.arr [e.2])
        | none => objSet obj e.1 (.arr [e.2])
      else objSet obj e.1 (.str e.2))
    []

/-! ## Helper lemmas -/

theorem mapThrow_ok {α β ε : Type} (f : α → β) (l : List α) :
    mapThrow (fun a => (Except.ok (f a) : Except ε β)) l = .ok (l.map f) := by
  induction l with
  | nil => rfl
  | cons a rest ih => simp [mapThrow, ih]

theorem mapThrow_coerceInt (l : List String) :
    mapThrow coerceInt l = .ok (l.map jsParseInt) :=
  mapThrow_ok jsParseInt l

theorem mapThrow_coerceFloat (l : List String) :
    mapThrow coerceFloat l = .ok (l.map jsParseFloat) :=
  mapThrow_ok jsParseFloat l

theorem foldl_appendParam (p acc : SearchParams) :
    p.foldl (fun a e => appendParam a e.1 e.2) acc = acc ++ p := by
  induction p generalizing acc with
  | nil => simp
  | cons e rest ih =>
    rw [List.foldl_cons, ih]
    simp [appendParam]

theorem copySearchParams_eq (p : SearchParams) : copySearchParams p = p := by
  simpa using foldl_appendParam p []

theorem getAllParams_append (p q : SearchParams) (k : String) :
    getAllParams (p ++ q) k = getAllParams p k ++ getAllParams q k := by
  induction p with
  | nil => simp [getAllParams]
  | cons e rest ih =>
    by_cases h : e.1 = k <;> simp [getAllParams, h, ih]

theorem deleteParam_eq_filter (p : SearchParams) (k : String) :
    deleteParam p k = p.filter (fun e => decide (e.1 ≠ k)) := by
  induction p with
  | nil => rfl
  | cons e rest ih =>
    by_cases h : e.1 = k <;> simp [deleteParam, h, ih, List.filter]

theorem getAllParams_filter_key (p : SearchParams) (f : String → Bool) (k : String) :
    getAllParams (p.filter (fun e => f e.1)) k =
      if f k then getAllParams p k else [] := by
  induction p with
  | nil => simp [getAllParams]
  | cons e rest ih =>
    by_cases hk : e.1 = k
    · subst hk
      cases hf : f e.1 <;> simp [getAllParams, List.filter, hf, ih]
    · cases hf : f e.1 <;> simp [getAllParams, List.filter, hf, hk, ih]

theorem getAllParams_deleteParam_self (p : SearchParams) (k : String) :
    getAllParams (deleteParam p k) k = [] := by
  rw [deleteParam_eq_filter]
  simpa using getAllParams_filter_key p (fun x => decide (x ≠ k)) k

theorem deleteSearchParams_eq_filter (p : SearchParams) (ks : List String) :
    deleteSearchParams p ks = p.filter (fun e => decide (e.1 ∉ ks)) := by
  unfold deleteSearchParams
  rw [copySearchParams_eq]
  induction ks generalizing p with
  | nil => simp
  | cons k ks ih =>
    rw [List.foldl_cons, ih, deleteParam_eq_filter, List.filter_filter]
    congr 1
    funext e
    by_cases h1 : e.1 = k <;> by_cases h2 : e.1 ∈ ks <;> simp [h1, h2]

theorem filterSearchParams_eq_filter (p : SearchParams) (ks : List String) :
    filterSearchParams p ks = p.filter (fun e => decide (e.1 ∈ ks)) := by
  unfold filterSearchParams
  rw [show (p.filter fun e => decide (e.1 ∈ ks)) =
      [] ++ (p.filter fun e => decide (e.1 ∈ ks)) from rfl]
  generalize ([] : SearchParams) = acc
  induction p generalizing acc with
  | nil => simp
  | cons e rest ih =>
    rw [List.foldl_cons, ih]
    by_cases h : e.1 ∈ ks <;> simp [List.filter_cons, h, appendParam]

theorem keysOf_filter_key (p : SearchParams) (f : String → Bool) (k : String) :
    k ∈ keysOf (p.filter (fun e => f e.1)) ↔ k ∈ keysOf p ∧ f k = true := by
  simp only [keysOf, List.mem_map, List.mem_filter]
  constructor
  · rintro ⟨e, ⟨he, hf⟩, rfl⟩
    exact ⟨⟨e, he, rfl⟩, hf⟩
  · rintro ⟨⟨e, he, rfl⟩, hf⟩
    exact ⟨e, ⟨he, hf⟩, rfl⟩

/-! ## Claim theorems -/

/-- Claim C1, counterexample: with values "1", "2", "x" for key `a`,
`getIntArray` does not return absent and logs nothing — it returns the
array [1, 2, NaN], because JS `parseInt` maps an unparseable string to NaN
instead of throwing. -/
theorem claim_C1_counterexample :
    getIntArray [("a", "1"), ("a", "2"), ("a", "x")] "a" =
      (some [JsNumber.num 1, JsNumber.num 2, JsNumber.nan], []) ∧
    (getIntArray [("a", "1"), ("a", "2"), ("a", "x")] "a").1 ≠ none := by
  constructor <;> decide

/-- Claim C1, amended: `getIntArray` on `a=1&a=2` returns [1, 2]; on
`a=1&a=2&a=x` it returns [1, 2, NaN] with no log (an element that fails
integer coercion becomes NaN, it never invalidates the array); in general
the call is absent exactly when the key has no values at all. -/
theorem claim_C1_amended :
    getIntArray [("a", "1"), ("a", "2")] "a" =
      (some [JsNumber.num 1, JsNumber.num 2], []) ∧
    getIntArray [("a", "1"), ("a", "2"), ("a", "x")] "a" =
      (some [JsNumber.num 1, JsNumber.num 2, JsNumber.nan], []) ∧
    ∀ (p : SearchParams) (k : String),
      (getIntArray p k).1 = none ↔ getAllParams p k = [] := by
  refine ⟨by decide, by decide, fun p k => ?_⟩
  unfold getIntArray
  simp only [mapThrow_coerceInt]
  cases h : (getAllParams p k).isEmpty <;>
    simp_all [List.isEmpty_iff]

/-- Claim C2, counterexample: when the first value for `k` is "abc",
`getInt` does not return absent — JS `parseInt("abc")` is NaN, not a
thrown error, so the call returns NaN and logs nothing. -/
theorem claim_C2_counterexample :
    getInt [("k", "abc")] "k" = (some JsNumber.nan, []) ∧
    (getInt [("k", "abc")] "k").1 ≠ none := by
  constructor <;> decide

/-- Claim C2, amended: `getInt` returns 42 when the first value is "42",
returns NaN (with no logged diagnostic) when it is "abc", returns absent
when it is ""; and it never logs at all. -/
theorem claim_C2_amended :
    getInt [("k", "42")] "k" = (some (JsNumber.num 42), []) ∧
    getInt [("k", "abc")] "k" = (some JsNumber.nan, []) ∧
    getInt [("k", "")] "k" = (none, []) ∧
    ∀ (p : SearchParams) (k : String), (getInt p k).2 = [] := by
  refine ⟨by decide, by decide, by decide, fun p k => ?_⟩
  unfold getInt
  cases getFirst p k with
  | none => rfl
  | some v => by_cases h : v = "" <;> simp [h, coerceInt]

/-- Claim C3: `getBoolean` returns `true` exactly when the first value is
"true", `false` exactly when it is "false" (case-sensitive), and for any
other non-empty first value returns absent via the error-log path. -/
theorem claim_C3_thm (p : SearchParams) (k : String) :
    ((getBoolean p k).1 = some true ↔ getFirst p k = some "true") ∧
    ((getBoolean p k).1 = some false ↔ getFirst p k = some "false") ∧
    ∀ v, getFirst p k = some v → v ≠ "" → v ≠ "true" → v ≠ "false" →
      getBoolean p k = (none, [parseErrMsg k]) := by
  unfold getBoolean coerceBool
  cases h : getFirst p k with
  | none => simp
  | some v =>
    by_cases h0 : v = ""
    · simp [h0]
    · by_cases h1 : v = "true"
      · simp [h0, h1]
      · by_cases h2 : v = "false" <;> simp [h0, h1, h2]

/-- Claim C3, witness: on first value "TRUE" (wrong case), `getBoolean`
logs the parse failure for key `k` and returns absent. -/
theorem claim_C3_witness :
    getBoolean [("k", "TRUE")] "k" = (none, [parseErrMsg "k"]) :=
  (claim_C3_thm [("k", "TRUE")] "k").2.2 "TRUE" (by decide) (by decide)
    (by decide) (by decide)

/-- Claim C4: whenever the first value of `orderDirection` is non-empty
and neither "asc" nor "desc", `getOrdering` resets BOTH fields to absent
(logging once), regardless of what `orderBy` holds. -/
theorem claim_C4_thm (p : SearchParams) (v : String)
    (h1 : getFirst p "orderDirection" = some v) (h2 : v ≠ "")
    (h3 : v ≠ "asc") (h4 : v ≠ "desc") :
    getOrdering p = (⟨none, none⟩, [parseErrMsg "ordering"]) := by
  have hod : getString p "orderDirection" = some v := by
    unfold getString
    rw [h1]
    simp [h2]
  unfold getOrdering
  rw [hod]
  simp [h3, h4]

/-- Claim C4, witness: `orderBy=name&orderDirection=sideways` yields both
fields absent, even though `orderBy` holds a valid non-empty string. -/
theorem claim_C4_witness :
    getOrdering [("orderBy", "name"), ("orderDirection", "sideways")] =
      (⟨none, none⟩, [parseErrMsg "ordering"]) :=
  claim_C4_thm [("orderBy", "name"), ("orderDirection", "sideways")]
    "sideways" (by decide) (by decide) (by decide) (by decide)

/-- Claim C5: when a key has no value at all, or its first value is the
empty string, every scalar extractor returns absent with no diagnostic
logged. -/
theorem claim_C5_thm (p : SearchParams) (k : String)
    (h : getFirst p k = none ∨ getFirst p k = some "") :
    getString p k = none ∧ getInt p k = (none, []) ∧
    getFloat p k = (none, []) ∧ getBoolean p k = (none, []) ∧
    getDate p k = (none, []) := by
  rcases h with h | h <;>
    simp [getString, getInt, getFloat, getBoolean, getDate, h]

/-- Claim C5, witness: key `k` present with the empty string as value. -/
theorem claim_C5_witness :
    (getFirst [("k", "")] "k" = none ∨ getFirst [("k", "")] "k" = some "") ∧
    (getString [("k", "")] "k" = none ∧ getInt [("k", "")] "k" = (none, []) ∧
     getFloat [("k", "")] "k" = (none, []) ∧
     getBoolean [("k", "")] "k" = (none, []) ∧
     getDate [("k", "")] "k" = (none, [])) :=
  ⟨Or.inr (by decide), claim_C5_thm [("k", "")] "k" (Or.inr (by decide))⟩

/-- Claim C6: round-trip of construction and conversion —
`searchParamsToObject (createSearchParams {a: 1, b: ["x","y"]}) ["b"]`
equals `{a: "1", b: ["x","y"]}` (the number stringified canonically, the
array in element order), and `createSearchParams {a: undefined, b: 5}`
contains only key `b` (absent inputs never appear). -/
theorem claim_C6_thm :
    searchParamsToObject
        (createSearchParams
          [("a", ParamValue.scalar (ScalarParam.num 1)),
           ("b", ParamValue.arr [ScalarParam.str "x", ScalarParam.str "y"])])
        ["b"] =
      [("a", ObjValue.str "1"), ("b", ObjValue.arr ["x", "y"])] ∧
    createSearchParams
        [("a", ParamValue.undef), ("b", ParamValue.scalar (ScalarParam.num 5))] =
      [("b", "5")] := by
  constructor <;> decide

/-- Claim C7: `addSearchParams` replaces sequences — in any collection
where key `b` already occurs, adding `{b: [3,4]}` leaves exactly the two
entries "3", "4" for `b` (prior occurrences cleared first), and adding
`{b: []}` leaves no `b` entry at all. -/
theorem claim_C7_thm (p : SearchParams) (h : hasParam p "b" = true) :
    getAllParams
        (addSearchParams p
          [("b", ParamValue.arr [ScalarParam.num 3, ScalarParam.num 4])]) "b" =
      ["3", "4"] ∧
    getAllParams (addSearchParams p [("b", ParamValue.arr [])]) "b" = [] := by
  constructor
  · have heq : addSearchParams p
        [("b", ParamValue.arr [ScalarParam.num 3, ScalarParam.num 4])] =
        deleteParam p "b" ++
          [("b", scalarToString (ScalarParam.num 3)),
           ("b", scalarToString (ScalarParam.num 4))] := by
      unfold addSearchParams
      rw [copySearchParams_eq]
      simp [h, appendParam]
    rw [heq, getAllParams_append, getAllParams_deleteParam_self]
    decide
  · have heq : addSearchParams p [("b", ParamValue.arr [])] =
        deleteParam p "b" := by
      unfold addSearchParams
      rw [copySearchParams_eq]
      simp
    rw [heq, getAllParams_deleteParam_self]

/-- Claim C7, witness: the collection `b=1&b=2`. -/
theorem claim_C7_witness :
    hasParam [("b", "1"), ("b", "2")] "b" = true ∧
    (getAllParams
        (addSearchParams [("b", "1"), ("b", "2")]
          [("b", ParamValue.arr [ScalarParam.num 3, ScalarParam.num 4])]) "b" =
      ["3", "4"] ∧
     getAllParams
        (addSearchParams [("b", "1"), ("b", "2")] [("b", ParamValue.arr [])])
        "b" = []) :=
  ⟨by decide, claim_C7_thm [("b", "1"), ("b", "2")] (by decide)⟩

/-- Claim C8: the observable content of copy-on-write in the embedding —
`copySearchParams p` iterates exactly the same (key, value) pairs in the
same order as `p`.  (Heap distinctness is not observable in a pure
embedding; the source builds a `new URLSearchParams()` in every transform
and never calls a mutator on its input.) -/
theorem claim_C8_thm (p : SearchParams) : copySearchParams p = p :=
  copySearchParams_eq p

/-- Claim C9: `deleteSearchParams` keeps exactly the pairs whose key is
NOT in the delete list and `filterSearchParams` exactly those whose key IS
in the keep list; both results are sublists of the input (original
relative order), per-key values survive with order and repeat count intact
(`getAllParams` unchanged for surviving keys, empty otherwise), and on the
key space they act as set difference and set intersection. -/
theorem claim_C9_thm (p : SearchParams) (ks : List String) (k : String) :
    List.Sublist (deleteSearchParams p ks) p ∧
    List.Sublist (filterSearchParams p ks) p ∧
    getAllParams (deleteSearchParams p ks) k =
      (if k ∈ ks then [] else getAllParams p k) ∧
    getAllParams (filterSearchParams p ks) k =
      (if k ∈ ks then getAllParams p k else []) ∧
    (k ∈ keysOf (deleteSearchParams p ks) ↔ k ∈ keysOf p ∧ k ∉ ks) ∧
    (k ∈ keysOf (filterSearchParams p ks) ↔ k ∈ keysOf p ∧ k ∈ ks) := by
  rw [deleteSearchParams_eq_filter, filterSearchParams_eq_filter]
  refine ⟨List.filter_sublist p, List.filter_sublist p, ?_, ?_, ?_, ?_⟩
  · rw [getAllParams_filter_key p (fun x => decide (x ∉ ks)) k]
    by_cases h : k ∈ ks <;> simp [h]
  · rw [getAllParams_filter_key p (fun x => decide (x ∈ ks)) k]
    by_cases h : k ∈ ks <;> simp [h]
  · rw [keysOf_filter_key p (fun x => decide (x ∉ ks)) k]
    simp
  · rw [keysOf_filter_key p (fun x => decide (x ∈ ks)) k]
    simp

/-- Claim C10 (implicit): for every key with at least one value,
`getIntArray` and `getFloatArray` never return absent and never log: they
return exactly the element-wise `parseInt` / `parseFloat` image of the
values (so one array slot per occurrence, unparseable slots being NaN —
the parsers are total, the catch branch is unreachable). -/
theorem claim_C10_thm (p : SearchParams) (k : String)
    (h : getAllParams p k ≠ []) :
    getIntArray p k = (some ((getAllParams p k).map jsParseInt), []) ∧
    getFloatArray p k = (some ((getAllParams p k).map jsParseFloat), []) ∧
    ((getAllParams p k).map jsParseInt).length = (getAllParams p k).length ∧
    ((getAllParams p k).map jsParseFloat).length =
      (getAllParams p k).length := by
  have hne : (getAllParams p k).isEmpty = false := by
    simp [List.isEmpty_iff, h]
  refine ⟨?_, ?_, by simp, by simp⟩
  · unfold getIntArray
    simp [mapThrow_coerceInt, hne]
  · unfold getFloatArray
    simp [mapThrow_coerceFloat, hne]

/-- Claim C10, witness: values "1", "x" for key `a` — both array getters
return full-length arrays with the unparseable element as NaN, no log. -/
theorem claim_C10_witness :
    getAllParams [("a", "1"), ("a", "x")] "a" ≠ [] ∧
    getIntArray [("a", "1"), ("a", "x")] "a" =
      (some [JsNumber.num 1, JsNumber.nan], []) ∧
    getFloatArray [("a", "1"), ("a", "x")] "a" =
      (some [JsNumber.num 1, JsNumber.nan], []) := by
  refine ⟨by decide, ?_, ?_⟩
  · rw [(claim_C10_thm [("a", "1"), ("a", "x")] "a" (by decide)).1]
    decide
  · rw [(claim_C10_thm [("a", "1"), ("a", "x")] "a" (by decide)).2.1]
    decide

end SearchParamsUtils
